import Mathlib

/-!
Verification development for the a2a-server task execution engine
(packages/a2a-server: CoderAgentExecutor, GCSTaskStore and the task turn-loop).

The definitions below are shallow embeddings of the TypeScript source:
pure control flow is transliterated into Lean functions, the GCS bucket is
an explicit record of association lists, asynchronous effects are made
explicit (an action trace for storage operations, an event list for the
event bus, a checkpoint counter for the cancellation signal), and code
that can throw returns `Except`.

The repository snapshot contains two revisions of the GCS task store in
`src/unnamed/part_001`; they are embedded separately as `GCSTaskStoreA`
(lines 1-249: save order task.json, workspace, index, context history;
load returns not-found when the snapshot is missing) and `GCSTaskStoreB`
(lines 250-559: save order index, task.json, workspace; load raises an
inconsistent-state error when the snapshot is missing).
-/

/-- Lifecycle states of a task, as in the A2A SDK (`TaskState`). -/
inductive TaskState
  | submitted
  | working
  | inputRequired
  | completed
  | canceled
  | failed
deriving DecidableEq, Repr

/-- The terminal set used by `CoderAgentExecutor.execute` (executor.ts:372). -/
def TaskState.isTerminal : TaskState → Bool
  | .completed => true
  | .canceled => true
  | .failed => true
  | _ => false

/-- String rendering of a task state, as used in published message texts. -/
def TaskState.asString : TaskState → String
  | .submitted => "submitted"
  | .working => "working"
  | .inputRequired => "input-required"
  | .completed => "completed"
  | .canceled => "canceled"
  | .failed => "failed"

/-- A message of a task history (`Message` of the A2A SDK), reduced to the
fields the embedded code inspects: its identifier and its text. -/
structure MessageL where
  messageId : String
  text : String
deriving DecidableEq, Repr

/-- A persisted task snapshot (`Task` of the A2A SDK, called `SDKTask` in
executor.ts). `hasPersistedState` models presence of the internal
`__persistedState` block in `metadata`; `state` is the persisted
`_taskState` of that block. -/
structure SDKTask where
  id : String
  contextId : String
  state : TaskState
  history : List MessageL
  hasPersistedState : Bool
deriving DecidableEq, Repr

/-- Association-list lookup (first binding wins), used for every keyed map
of the embedding. -/
def alookup {α β : Type} [DecidableEq α] (l : List (α × β)) (k : α) : Option β :=
  (l.find? (fun p => decide (p.1 = k))).map (fun p => p.2)

/-- Association-list update: replaces any binding of `k` by `v`. -/
def aupdate {α β : Type} [DecidableEq α] (l : List (α × β)) (k : α) (v : β) :
    List (α × β) :=
  (k, v) :: l.filter (fun p => !(decide (p.1 = k)))

/-- The contents of the GCS bucket, as four keyed object families
(the logical snapshot layout: index entries, task snapshots, workspace
archives and per-context message logs). -/
structure GCSState where
  index : List (String × String)
  snapshots : List ((String × String) × SDKTask)
  archives : List ((String × String) × List String)
  contextLogs : List (String × List MessageL)
deriving DecidableEq, Repr

/-- Environment of a `save` call: whether the working directory
(`process.cwd()`) exists, its entries, and whether `tar.c` fails to
produce the temporary archive (checked only by revision B). -/
structure SaveEnv where
  workDirExists : Bool
  workDirEntries : List String
  tarFails : Bool
deriving DecidableEq, Repr

/-- One storage operation performed by the store, recorded in order. -/
inductive StoreAction
  | saveIndex (taskId contextId : String)
  | saveTaskJson (contextId taskId : String)
  | saveWorkspace (contextId taskId : String)
  | saveContextLog (contextId : String)
  | extractWorkspace (contextId taskId : String)
deriving DecidableEq, Repr

/-- Deduplicated append to a context log, from GCSTaskStoreA.save step 4
(part_001:157-172): only messages whose `messageId` is not already in the
log are pushed. -/
def appendNewMessages (log : List MessageL) (msgs : List MessageL) : List MessageL :=
  log ++ msgs.filter (fun m => !((log.map (fun x => x.messageId)).contains m.messageId))

/-- Revision A of `GCSTaskStore.save` (part_001:80-173). Steps, in source
order: (1) write `task.json`, (2) archive and upload the workspace when
the working directory exists and is non-empty, (3) write the index entry,
(4) append new history messages to `context_history.json`. Returns the
new bucket contents together with the ordered trace of storage writes. -/
def GCSTaskStoreA.save (st : GCSState) (env : SaveEnv) (task : SDKTask) :
    Except String (GCSState × List StoreAction) :=
  if task.contextId = "" then
    .error ("Task " ++ task.id ++ " is missing a contextId.")
  else
    let st1 : GCSState :=
      { st with snapshots := aupdate st.snapshots (task.contextId, task.id) task }
    let acts1 : List StoreAction := [StoreAction.saveTaskJson task.contextId task.id]
    let doWorkspace : Bool := env.workDirExists && !env.workDirEntries.isEmpty
    let st2 : GCSState :=
      if doWorkspace then
        { st1 with archives := aupdate st1.archives (task.contextId, task.id) env.workDirEntries }
      else st1
    let acts2 : List StoreAction :=
      acts1 ++ (if doWorkspace then [StoreAction.saveWorkspace task.contextId task.id] else [])
    let st3 : GCSState := { st2 with index := aupdate st2.index task.id task.contextId }
    let acts3 : List StoreAction := acts2 ++ [StoreAction.saveIndex task.id task.contextId]
    let history : List MessageL := (alookup st3.contextLogs task.contextId).getD []
    let newMessages : List MessageL :=
      task.history.filter (fun m => !((history.map (fun x => x.messageId)).contains m.messageId))
    if newMessages.isEmpty then .ok (st3, acts3)
    else
      let st4 : GCSState :=
        { st3 with contextLogs :=
            aupdate st3.contextLogs task.contextId (appendNewMessages history task.history) }
      .ok (st4, acts3 ++ [StoreAction.saveContextLog task.contextId])

/-- Revision A of `GCSTaskStore.load` (part_001:175-236). A missing index
entry is not-found; a missing `task.json` despite an index entry is logged
and returns not-found as well; a snapshot without the internal persisted
state block raises; the workspace archive, when present, is extracted. -/
def GCSTaskStoreA.load (st : GCSState) (taskId : String) :
    Except String (Option SDKTask × List StoreAction) :=
  match alookup st.index taskId with
  | none => .ok (none, [])
  | some contextId =>
    match alookup st.snapshots (contextId, taskId) with
    | none => .ok (none, [])
    | some task =>
      if !task.hasPersistedState then
        .error ("Loaded metadata for task " ++ taskId ++ " is missing internal persisted state.")
      else
        match alookup st.archives (contextId, taskId) with
        | some _ => .ok (some task, [StoreAction.extractWorkspace contextId taskId])
        | none => .ok (some task, [])

/-- Revision A of `GCSTaskStore.getContextHistory` (part_001:238-248):
the accumulated message log of a context, or empty when none exists. -/
def GCSTaskStoreA.getContextHistory (st : GCSState) (contextId : String) :
    List MessageL :=
  (alookup st.contextLogs contextId).getD []

/-- Revision B of `GCSTaskStore.save` (part_001:338-462). Steps, in source
order: (1) write the index entry, (2) write `task.json`, (3) archive and
upload the workspace when the working directory exists and is non-empty,
raising when `tar.c` fails to produce the temporary archive. There is no
context-history step in this revision. -/
def GCSTaskStoreB.save (st : GCSState) (env : SaveEnv) (task : SDKTask) :
    Except String (GCSState × List StoreAction) :=
  if task.contextId = "" then
    .error ("Task " ++ task.id ++ " is missing contextId.")
  else
    let st1 : GCSState := { st with index := aupdate st.index task.id task.contextId }
    let acts1 : List StoreAction := [StoreAction.saveIndex task.id task.contextId]
    let st2 : GCSState :=
      { st1 with snapshots := aupdate st1.snapshots (task.contextId, task.id) task }
    let acts2 : List StoreAction := acts1 ++ [StoreAction.saveTaskJson task.contextId task.id]
    if env.workDirExists && !env.workDirEntries.isEmpty then
      if env.tarFails then
        .error "tar.c command failed to create the temporary archive"
      else
        .ok ({ st2 with archives := aupdate st2.archives (task.contextId, task.id) env.workDirEntries },
             acts2 ++ [StoreAction.saveWorkspace task.contextId task.id])
    else .ok (st2, acts2)

/-- Revision B of `GCSTaskStore.load` (part_001:464-542). A missing index
entry is not-found; an index entry without a snapshot raises the
inconsistent-state error; the workspace archive, when present, is
extracted. -/
def GCSTaskStoreB.load (st : GCSState) (taskId : String) :
    Except String (Option SDKTask × List StoreAction) :=
  match alookup st.index taskId with
  | none => .ok (none, [])
  | some contextId =>
    match alookup st.snapshots (contextId, taskId) with
    | none =>
      .error ("Inconsistent state: Task object not found for task " ++ taskId)
    | some task =>
      match alookup st.archives (contextId, taskId) with
      | some _ => .ok (some task, [StoreAction.extractWorkspace contextId taskId])
      | none => .ok (some task, [])

/-! ## Executor embedding (executor.ts) -/

/-- Result status of a tool call record. -/
inductive ToolStatus
  | pending
  | success
  | errored
  | cancelled
deriving DecidableEq, Repr

/-- One tool-call record of a task's in-flight set: call identifier,
result status, and the cancellation reason when cancelled. -/
structure ToolCall where
  callId : String
  status : ToolStatus
  reason : Option String
deriving DecidableEq, Repr

/-- A status-update record published on the execution event bus:
task id, context id, lifecycle state, optional message text and the
final flag of the invocation. -/
structure StatusEvent where
  taskId : String
  contextId : String
  state : TaskState
  messageText : Option String
  final : Bool
deriving DecidableEq, Repr

/-- The runtime `Task` object owned by the executor (agent/task.ts, which
is not part of the snapshot; its fields follow the spec's data model):
identifiers, lifecycle state, the in-flight tool set, the
message-acceptance channel and the conversation history. -/
structure AgentTask where
  id : String
  contextId : String
  taskState : TaskState
  pendingTools : List ToolCall
  messageQueue : List String
  history : List String
deriving DecidableEq, Repr

/-- Modelled from the spec: `Task.cancelPendingTools` (agent/task.ts is not
under src/) marks every still-pending tool call as cancelled with the given
reason; already-settled calls are untouched. -/
def AgentTask.cancelPendingTools (t : AgentTask) (reason : String) : AgentTask :=
  { t with pendingTools := t.pendingTools.map (fun tc =>
      if tc.status = ToolStatus.pending then
        { tc with status := ToolStatus.cancelled, reason := some reason }
      else tc) }

/-- Modelled from the spec: `Task.setTaskStateAndPublishUpdate` (agent/task.ts
is not under src/) sets the lifecycle state and publishes a status-update
event tagged with the task and context ids and the final flag. -/
def AgentTask.setTaskStateAndPublishUpdate (t : AgentTask) (s : TaskState)
    (msg : Option String) (final : Bool) : AgentTask × StatusEvent :=
  ({ t with taskState := s },
   { taskId := t.id, contextId := t.contextId, state := s, messageText := msg, final := final })

/-- Executor-owned registries: the in-memory task map and the set of task
ids with an active execution loop. -/
structure ExecutorState where
  tasks : List (String × AgentTask)
  executingTasks : List String
deriving DecidableEq, Repr

/-- Task lookup in the in-memory registry (`this.tasks.get`). -/
def ExecutorState.getTask (s : ExecutorState) (taskId : String) : Option AgentTask :=
  alookup s.tasks taskId

/-- Modelled from the spec: `pushTaskStateFailed` (utils/executor_utils.ts is
not under src/) publishes a terminal failed status event carrying the error
text. -/
def pushTaskStateFailed (msg taskId contextId : String) : StatusEvent :=
  { taskId := taskId, contextId := contextId, state := TaskState.failed,
    messageText := some msg, final := true }

/-- `CoderAgentExecutor.cancelTask` (executor.ts:150-265). Unknown id:
publish one failed final event naming the id (with a fresh context id) and
return. State canceled or failed: re-publish that state and return.
Otherwise cancel pending tools, transition to canceled and publish the
final event. The checkpoint save is elided (the store is external here and
its failure branch only converts errors into a failed event). -/
def CoderAgentExecutor.cancelTask (s : ExecutorState) (taskId : String)
    (freshContextId : String) : ExecutorState × List StatusEvent :=
  match s.getTask taskId with
  | none =>
    (s, [{ taskId := taskId, contextId := freshContextId, state := TaskState.failed,
           messageText := some ("Task " ++ taskId ++ " not found."), final := true }])
  | some task =>
    if task.taskState = TaskState.canceled ∨ task.taskState = TaskState.failed then
      (s, [{ taskId := taskId, contextId := task.contextId, state := task.taskState,
             messageText := some ("Task " ++ taskId ++ " is already " ++
               task.taskState.asString ++ "."), final := true }])
    else
      let t1 := task.cancelPendingTools "Task canceled by user request."
      let p := t1.setTaskStateAndPublishUpdate TaskState.canceled
        (some "Task canceled by user request.") true
      ({ s with tasks := aupdate s.tasks taskId p.1 }, [p.2])

/-- An event pulled from the model stream inside the turn-loop: a tool-call
request (accumulated into the batch), a content event (applied immediately
via `acceptAgentMessage`), or a point at which the generator raises. -/
inductive AgentEvent
  | toolCallRequest (callId : String)
  | content (text : String)
  | streamThrow (msg : String)
deriving DecidableEq, Repr

/-- A settled tool-call outcome ("settle" means success, error or
cancelled; cancellations carry a reason). -/
inductive SettledStatus
  | success
  | errored
  | cancelled (reason : String)
deriving DecidableEq, Repr

/-- Applies a settled outcome to a tool-call record. -/
def applySettled (tc : ToolCall) : SettledStatus → ToolCall
  | SettledStatus.success => { tc with status := ToolStatus.success }
  | SettledStatus.errored => { tc with status := ToolStatus.errored }
  | SettledStatus.cancelled r => { tc with status := ToolStatus.cancelled, reason := some r }

/-- Modelled from the spec: the external tool-scheduling collaborator, as
an oracle. `settleFull` is the outcome of a call when the wait for
settlement completes; `settleAtAbort` is its outcome when the wait is
interrupted by the cancellation signal (`none` means still pending). -/
structure ToolOracle where
  settleFull : String → SettledStatus
  settleAtAbort : String → Option SettledStatus

/-- The cancellation signal of one `execute` invocation, modelled by the
checkpoint index at which it fires: the signal reads aborted at every
checkpoint from `abortAt` on (none: it never fires). -/
def isAborted (abortAt : Option Nat) (c : Nat) : Bool :=
  match abortAt with
  | some a => decide (a ≤ c)
  | none => false

/-- Modelled from the spec: `Task.scheduleToolCalls` (agent/task.ts is not
under src/) adds one pending record per requested call. -/
def scheduleToolCalls (t : AgentTask) (reqs : List String) : AgentTask :=
  { t with pendingTools := t.pendingTools ++
      reqs.map (fun id => { callId := id, status := ToolStatus.pending, reason := none }) }

/-- Modelled from the spec: the wait for settlement completing normally,
every pending call reaching its oracle outcome. -/
def settleAll (o : ToolOracle) (t : AgentTask) : AgentTask :=
  { t with pendingTools := t.pendingTools.map (fun tc =>
      if tc.status = ToolStatus.pending then applySettled tc (o.settleFull tc.callId)
      else tc) }

/-- Modelled from the spec: the wait for settlement interrupted by the
cancellation signal; calls the oracle did not settle remain pending. -/
def settleAtAbort (o : ToolOracle) (t : AgentTask) : AgentTask :=
  { t with pendingTools := t.pendingTools.map (fun tc =>
      if tc.status = ToolStatus.pending then
        match o.settleAtAbort tc.callId with
        | some s => applySettled tc s
        | none => tc
      else tc) }

/-- Modelled from the spec: `Task.getAndClearCompletedTools` (agent/task.ts
is not under src/) returns the settled records and removes them from the
in-flight set. -/
def getAndClearCompletedTools (t : AgentTask) : List ToolCall × AgentTask :=
  (t.pendingTools.filter (fun tc => !(tc.status = ToolStatus.pending : Bool)),
   { t with pendingTools := t.pendingTools.filter (fun tc => (tc.status = ToolStatus.pending : Bool)) })

/-- Modelled from the spec: `Task.addToolResponsesToHistory` records the
settled batch into the conversation history. -/
def addToolResponsesToHistory (t : AgentTask) (completed : List ToolCall) : AgentTask :=
  { t with history := t.history ++ completed.map (fun tc => tc.callId) }

/-- How one invocation of the turn-loop ended: normally (executor.ts:451),
through the catch with the cancellation signal fired (executor.ts:459-473),
or through the catch with any other error (executor.ts:474-491). -/
inductive LoopExit
  | normalExit
  | abortCaught
  | errorCaught (msg : String)
deriving DecidableEq, Repr

/-- Result of one turn-loop invocation: the task afterwards, the status
events published (in order), the content texts forwarded to the sink, and
how the loop ended. -/
structure LoopResult where
  task : AgentTask
  events : List StatusEvent
  texts : List String
  exit : LoopExit
deriving DecidableEq, Repr

/-- The catch block of `execute` (executor.ts:458-491): with the signal
fired, cancel pending tools with reason "Execution aborted" and — unless
the state is already canceled or failed — transition to input-required
with a final event noting the abort; otherwise cancel pending tools with
the error message and — unless already failed — transition to failed with
a final event carrying the error text. -/
def catchBlock (abortedNow : Bool) (errMsg : String) (t : AgentTask) : LoopResult :=
  if abortedNow then
    let t1 := t.cancelPendingTools "Execution aborted"
    if t1.taskState ≠ TaskState.canceled ∧ t1.taskState ≠ TaskState.failed then
      let p := t1.setTaskStateAndPublishUpdate TaskState.inputRequired
        (some "Execution aborted by client.") true
      { task := p.1, events := [p.2], texts := [], exit := LoopExit.abortCaught }
    else
      { task := t1, events := [], texts := [], exit := LoopExit.abortCaught }
  else
    let t1 := t.cancelPendingTools errMsg
    if t1.taskState ≠ TaskState.failed then
      let p := t1.setTaskStateAndPublishUpdate TaskState.failed (some errMsg) true
      { task := p.1, events := [p.2], texts := [], exit := LoopExit.errorCaught errMsg }
    else
      { task := t1, events := [], texts := [], exit := LoopExit.errorCaught errMsg }

/-- Result of pulling one model stream to its end (executor.ts:407-416):
either the stream is exhausted (with the accumulated tool-call batch and
the forwarded texts), or a throw happened — `none` for the abort check
raising, `some m` for the generator itself raising `m`. -/
inductive StreamResult
  | done (reqs : List String) (texts : List String) (c : Nat)
  | threw (errMsg : Option String) (texts : List String) (c : Nat)
deriving DecidableEq, Repr

/-- Consumes one model stream (the for-await loop of executor.ts:407-416):
each pulled event is preceded by an abort checkpoint; tool-call requests
are batched, other events are applied immediately; a generator throw
surfaces before the body's checkpoint runs. -/
def consumeStream (abortAt : Option Nat) : List AgentEvent → Nat → StreamResult
  | [], c => StreamResult.done [] [] c
  | AgentEvent.streamThrow m :: _, c => StreamResult.threw (some m) [] c
  | AgentEvent.toolCallRequest id :: rest, c =>
    if isAborted abortAt c then StreamResult.threw none [] (c + 1)
    else
      match consumeStream abortAt rest (c + 1) with
      | StreamResult.done reqs texts c2 => StreamResult.done (id :: reqs) texts c2
      | StreamResult.threw m texts c2 => StreamResult.threw m texts c2
  | AgentEvent.content tx :: rest, c =>
    if isAborted abortAt c then StreamResult.threw none [] (c + 1)
    else
      match consumeStream abortAt rest (c + 1) with
      | StreamResult.done reqs texts c2 => StreamResult.done reqs (tx :: texts) c2
      | StreamResult.threw m texts c2 => StreamResult.threw m (tx :: texts) c2

/-- Outcome of one iteration of the while-loop (executor.ts:405-449):
either the invocation ends now (normal exit or catch), or the settled
batch is fed back to the model and the loop continues. -/
inductive IterStep
  | exitNow (r : LoopResult)
  | continueLoop (t : AgentTask) (c : Nat) (texts : List String)
deriving Repr

/-- Classification of the settled batch (executor.ts:427-449) followed by
the final input-required publish of executor.ts:451 when the loop ends in
this iteration: an empty batch ends the turn (one final event); a batch
with every call cancelled records it into history, publishes the final
input-required event of executor.ts:433-439 and then the one of
executor.ts:451 as well; otherwise the settled results are fed back to the
model and the loop continues. -/
def classifyBatch (t3 : AgentTask) (completed : List ToolCall) (c5 : Nat)
    (texts : List String) : IterStep :=
  if completed.isEmpty then
    IterStep.exitNow { task := (t3.setTaskStateAndPublishUpdate TaskState.inputRequired none true).1, events := [(t3.setTaskStateAndPublishUpdate TaskState.inputRequired none true).2], texts := texts, exit := LoopExit.normalExit }
  else if completed.all (fun tc => tc.status = ToolStatus.cancelled) then
    IterStep.exitNow { task := (((addToolResponsesToHistory t3 completed).setTaskStateAndPublishUpdate TaskState.inputRequired none true).1.setTaskStateAndPublishUpdate TaskState.inputRequired none true).1, events := [((addToolResponsesToHistory t3 completed).setTaskStateAndPublishUpdate TaskState.inputRequired none true).2, (((addToolResponsesToHistory t3 completed).setTaskStateAndPublishUpdate TaskState.inputRequired none true).1.setTaskStateAndPublishUpdate TaskState.inputRequired none true).2], texts := texts, exit := LoopExit.normalExit }
  else
    IterStep.continueLoop t3 c5 texts

/-- One iteration of the while-loop (executor.ts:405-449) over the current
model stream: consume events (each pull preceded by an abort checkpoint),
check the signal after the stream ends, schedule the non-empty batch, wait
for settlement (a suspension point at which the signal may interrupt the
wait), check the signal again, then classify the settled batch. -/
def runOneIteration (o : ToolOracle) (abortAt : Option Nat) (t : AgentTask)
    (cur : List AgentEvent) (c : Nat) : IterStep :=
  match consumeStream abortAt cur c with
  | StreamResult.threw m texts c2 =>
    IterStep.exitNow { catchBlock (isAborted abortAt c2) (m.getD "Execution aborted") t with texts := texts }
  | StreamResult.done reqs texts c2 =>
    if isAborted abortAt c2 then
      IterStep.exitNow { catchBlock true "Execution aborted" t with texts := texts }
    else if isAborted abortAt (c2 + 1) then
      IterStep.exitNow { catchBlock true "Execution aborted" (settleAtAbort o (if reqs.isEmpty then t else scheduleToolCalls t reqs)) with texts := texts }
    else if isAborted abortAt (c2 + 2) then
      IterStep.exitNow { catchBlock true "Execution aborted" (settleAll o (if reqs.isEmpty then t else scheduleToolCalls t reqs)) with texts := texts }
    else
      classifyBatch (getAndClearCompletedTools (settleAll o (if reqs.isEmpty then t else scheduleToolCalls t reqs))).2 (getAndClearCompletedTools (settleAll o (if reqs.isEmpty then t else scheduleToolCalls t reqs))).1 (c2 + 3) texts

/-- The while-loop of `execute` (executor.ts:398-457) with fuel: each
iteration consumes the head stream (the response to the user message, then
the responses to the fed-back tool results); when the loop finishes
without a throw the final input-required event of executor.ts:451 has
already been appended by the iteration that ended it. -/
def runIterations (o : ToolOracle) (abortAt : Option Nat) :
    Nat → AgentTask → List (List AgentEvent) → Nat → LoopResult
  | 0, t, _, _ => { task := t, events := [], texts := [], exit := LoopExit.normalExit }
  | Nat.succ fuel, t, streams, c =>
    match runOneIteration o abortAt t (streams.headD []) c with
    | IterStep.exitNow r => r
    | IterStep.continueLoop t2 c2 texts =>
      let r := runIterations o abortAt fuel t2 streams.tail c2
      { r with texts := texts ++ r.texts }

/-- One full turn-loop invocation: enough fuel for every scripted model
response plus the iterations that drain leftover settled tools. -/
def runTurnLoop (o : ToolOracle) (abortAt : Option Nat) (t : AgentTask)
    (streams : List (List AgentEvent)) : LoopResult :=
  runIterations o abortAt (streams.length + 2) t streams 0

/-- The inbound request of one `execute` call: the user message's `taskId`,
`contextId` and text (the empty string models an absent/falsy field), a
flag for valid coder-agent settings in the message metadata, and the
previously-persisted task snapshot carried by the request, when any. -/
structure RequestContext where
  messageTaskId : String
  messageContextId : String
  messageText : String
  messageHasAgentSettings : Bool
  task : Option SDKTask
deriving DecidableEq, Repr

/-- JavaScript `a || b` on strings, where the empty string is falsy. -/
def strOr (a b : String) : String := if a = "" then b else a

/-- Task-id resolution (executor.ts:274):
`sdkTask?.id || userMessage.taskId || uuidv4()`. -/
def resolveTaskId (req : RequestContext) (fresh : String) : String :=
  strOr (match req.task with | some t => t.id | none => "")
    (strOr req.messageTaskId fresh)

/-- Context-id resolution (executor.ts:275-276):
`userMessage.contextId || sdkTask?.contextId || uuidv4()`. -/
def resolveContextId (req : RequestContext) (fresh : String) : String :=
  strOr req.messageContextId
    (strOr (match req.task with | some t => t.contextId | none => "") fresh)

/-- `CoderAgentExecutor.reconstruct` (executor.ts:78-116): fails when the
snapshot lacks the internal persisted-state block; otherwise rebuilds the
runtime task with the persisted state and registers it in memory. (Model
session replay has no observable effect in this embedding.) -/
def CoderAgentExecutor.reconstruct (s : ExecutorState) (sdk : SDKTask) :
    Except String (ExecutorState × AgentTask) :=
  if sdk.hasPersistedState then
    let t : AgentTask := { id := sdk.id, contextId := sdk.contextId, taskState := sdk.state,
                           pendingTools := [], messageQueue := [],
                           history := sdk.history.map (fun m => m.text) }
    .ok ({ s with tasks := aupdate s.tasks sdk.id t }, t)
  else
    .error ("Cannot reconstruct task " ++ sdk.id ++ ": missing persisted state in metadata.")

/-- `CoderAgentExecutor.createTask` (executor.ts:118-140): allocates a
fresh runtime task (initial lifecycle state `submitted`, per the spec's
Task.create) and registers it in memory; the initial checkpoint save is an
external store effect elided here. -/
def CoderAgentExecutor.createTask (s : ExecutorState) (taskId contextId : String) :
    ExecutorState × AgentTask :=
  let t : AgentTask := { id := taskId, contextId := contextId,
                         taskState := TaskState.submitted, pendingTools := [],
                         messageQueue := [], history := [] }
  ({ s with tasks := aupdate s.tasks taskId t }, t)

/-- Which path one `execute` call took. -/
inductive ExecPath
  | hydrationFailed
  | settingsMissing
  | terminalIgnored
  | absorbed
  | ranLoop (exit : LoopExit)
deriving DecidableEq, Repr

/-- Result of one `execute` call: executor registries afterwards, the
status events published, the forwarded content texts, and the taken path.
The function is total: every throw site inside the loop's try block is
converted by the catch block, mirroring that no exception escapes it. -/
structure ExecuteResult where
  state : ExecutorState
  events : List StatusEvent
  texts : List String
  path : ExecPath
deriving DecidableEq, Repr

/-- The tail of `execute` once the task is resolved (executor.ts:372-497):
ignore the request when the task state is canceled, failed or completed;
when the id is in the executing set, absorb the message into the running
task's message-acceptance channel and return; otherwise mark the id
executing, run the turn-loop, and unmark it in the finally block (the net
effect on the executing set is identity). -/
def executeWithTask (s : ExecutorState) (req : RequestContext) (o : ToolOracle)
    (abortAt : Option Nat) (streams : List (List AgentEvent))
    (taskId : String) (t : AgentTask) : ExecuteResult :=
  if t.taskState = TaskState.canceled ∨ t.taskState = TaskState.failed ∨
      t.taskState = TaskState.completed then
    { state := s, events := [], texts := [], path := ExecPath.terminalIgnored }
  else if s.executingTasks.contains taskId then
    let t1 := { t with messageQueue := t.messageQueue ++ [req.messageText] }
    { state := { s with tasks := aupdate s.tasks taskId t1 }, events := [],
      texts := [], path := ExecPath.absorbed }
  else
    let r := runTurnLoop o abortAt t streams
    { state := { s with tasks := aupdate s.tasks taskId r.task },
      events := r.events, texts := r.texts, path := ExecPath.ranLoop r.exit }

/-- `CoderAgentExecutor.execute` (executor.ts:267-498). Resolves the ids,
locates the task (memory, then snapshot reconstruction, then creation —
requiring agent settings on the first message of a new task), then runs
the resolved-task tail. `freshTaskId`/`freshContextId` stand for the
`uuidv4()` calls of the id resolution. -/
def CoderAgentExecutor.execute (s : ExecutorState) (req : RequestContext)
    (o : ToolOracle) (abortAt : Option Nat) (streams : List (List AgentEvent))
    (freshTaskId freshContextId : String) : ExecuteResult :=
  let taskId := resolveTaskId req freshTaskId
  let contextId := resolveContextId req freshContextId
  match s.getTask taskId with
  | some t => executeWithTask s req o abortAt streams taskId t
  | none =>
    match req.task with
    | some sdk =>
      match CoderAgentExecutor.reconstruct s sdk with
      | .error msg =>
        { state := s, events := [pushTaskStateFailed msg taskId sdk.contextId],
          texts := [], path := ExecPath.hydrationFailed }
      | .ok (s1, t) => executeWithTask s1 req o abortAt streams taskId t
    | none =>
      if req.messageHasAgentSettings then
        let p := CoderAgentExecutor.createTask s taskId contextId
        executeWithTask p.1 req o abortAt streams taskId p.2
      else
        { state := s,
          events := [pushTaskStateFailed
            "Internal error: AgentSettings not found in the first message of a new task."
            taskId contextId],
          texts := [], path := ExecPath.settingsMissing }

/-! ## Derived notions and concrete instances used by the verification -/

/-- The final status event the catch block publishes when the cancellation
signal fired (executor.ts:466-472). -/
def abortStatusEvent (taskId contextId : String) : StatusEvent :=
  { taskId := taskId, contextId := contextId, state := TaskState.inputRequired,
    messageText := some "Execution aborted by client.", final := true }

/-- The final status event the catch block publishes for a non-abort error
(executor.ts:483-489). -/
def failedStatusEvent (taskId contextId msg : String) : StatusEvent :=
  { taskId := taskId, contextId := contextId, state := TaskState.failed,
    messageText := some msg, final := true }

/-- A tool call whose cancellation, with its recorded reason, came from the
tool-scheduling collaborator (user-side cancellation of an approval). -/
def oracleCancelled (o : ToolOracle) (tc : ToolCall) : Prop :=
  (∃ rs, o.settleFull tc.callId = SettledStatus.cancelled rs ∧ tc.reason = some rs) ∨
  (∃ rs, o.settleAtAbort tc.callId = some (SettledStatus.cancelled rs) ∧ tc.reason = some rs)

/-- After the catch block with cancel reason `catchReason`: the call is no
longer pending, and if it ended cancelled it carries a reason — the catch
block's reason, or the one the scheduling collaborator recorded. -/
def cancelledWithReason (o : ToolOracle) (catchReason : String) (tc : ToolCall) : Prop :=
  tc.status ≠ ToolStatus.pending ∧
  (tc.status = ToolStatus.cancelled → tc.reason = some catchReason ∨ oracleCancelled o tc)

/-- Mid-loop tool-set invariant: every cancelled record got its reason from
the scheduling collaborator. -/
def oracleSettledTools (o : ToolOracle) (tools : List ToolCall) : Prop :=
  ∀ tc ∈ tools, tc.status = ToolStatus.cancelled → oracleCancelled o tc

/-- What holds of a turn-loop run that ended through the catch block with
the cancellation signal fired, relative to the task at loop entry. -/
def abortConclusion (o : ToolOracle) (t0 : AgentTask) (r : LoopResult) : Prop :=
  r.task.id = t0.id ∧ r.task.contextId = t0.contextId ∧
  r.task.taskState = TaskState.inputRequired ∧
  r.events = [abortStatusEvent t0.id t0.contextId] ∧
  ∀ tc ∈ r.task.pendingTools, cancelledWithReason o "Execution aborted" tc

/-- What holds of a turn-loop run that ended through the catch block with a
non-abort error, relative to the task at loop entry. -/
def errorConclusion (o : ToolOracle) (t0 : AgentTask) (msg : String) (r : LoopResult) : Prop :=
  r.task.id = t0.id ∧ r.task.contextId = t0.contextId ∧
  r.task.taskState = TaskState.failed ∧
  r.events = [failedStatusEvent t0.id t0.contextId msg] ∧
  ∀ tc ∈ r.task.pendingTools, cancelledWithReason o msg tc

/-- The messages of a task's history that are new relative to the stored
context log (the filter of GCSTaskStoreA.save step 4). -/
def newMessagesA (st : GCSState) (task : SDKTask) : List MessageL :=
  task.history.filter (fun m =>
    !(((GCSTaskStoreA.getContextHistory st task.contextId).map (fun x => x.messageId)).contains
      m.messageId))

/-- Number of messages with a given id in a log. -/
def countMsg (mid : String) (log : List MessageL) : Nat :=
  (log.filter (fun m => decide (m.messageId = mid))).length

/-- Statement of claim C7's step order, following the spec's words: the
save would perform (1) the index write, then (2) the snapshot write, then
(3) the archive upload when the working directory exists and is non-empty,
then (4) the context-log append when it appends at all. -/
def c7ClaimedTrace (task : SDKTask) (env : SaveEnv) (logAppended : Bool) : List StoreAction :=
  [StoreAction.saveIndex task.id task.contextId,
   StoreAction.saveTaskJson task.contextId task.id] ++
  (if env.workDirExists && !env.workDirEntries.isEmpty then
    [StoreAction.saveWorkspace task.contextId task.id] else []) ++
  (if logAppended then [StoreAction.saveContextLog task.contextId] else [])

/-- Empty bucket. -/
def emptyGCS : GCSState := { index := [], snapshots := [], archives := [], contextLogs := [] }

/-- Concrete task used to exercise GCSTaskStoreA.save. -/
def c7Task : SDKTask :=
  { id := "t1", contextId := "c1", state := TaskState.working,
    history := [{ messageId := "m1", text := "hello" }], hasPersistedState := true }

/-- Concrete save environment with a non-empty working directory. -/
def c7Env : SaveEnv := { workDirExists := true, workDirEntries := ["f.txt"], tarFails := false }

/-- Bucket with a dangling index entry (index without snapshot). -/
def c8Dangling : GCSState :=
  { index := [("t1", "c1")], snapshots := [], archives := [], contextLogs := [] }

/-- Concrete context log already holding message `m1`. -/
def c9St : GCSState :=
  { index := [], snapshots := [], archives := [],
    contextLogs := [("c1", [{ messageId := "m1", text := "x" }])] }

/-- Save environment with an absent working directory. -/
def c9Env : SaveEnv := { workDirExists := false, workDirEntries := [], tarFails := false }

/-- Task whose history repeats `m1` and adds `m2`. -/
def c9Task : SDKTask :=
  { id := "t1", contextId := "c1", state := TaskState.working,
    history := [{ messageId := "m1", text := "x" }, { messageId := "m2", text := "y" }],
    hasPersistedState := true }

/-- The bucket state after saving `c9Task` over `c9St`. -/
def c9St2 : GCSState :=
  { index := [("t1", "c1")], snapshots := [(("c1", "t1"), c9Task)], archives := [],
    contextLogs := [("c1", [{ messageId := "m1", text := "x" }, { messageId := "m2", text := "y" }])] }

/-- The action trace of that save. -/
def c9Acts : List StoreAction :=
  [StoreAction.saveTaskJson "c1" "t1", StoreAction.saveIndex "t1" "c1",
   StoreAction.saveContextLog "c1"]

/-- A completed task holding one pending tool call. -/
def c1Task : AgentTask :=
  { id := "t1", contextId := "c1", taskState := TaskState.completed,
    pendingTools := [{ callId := "call1", status := ToolStatus.pending, reason := none }],
    messageQueue := [], history := [] }

/-- Registry holding only `c1Task`. -/
def c1State : ExecutorState := { tasks := [("t1", c1Task)], executingTasks := [] }

/-- Registry with one completed and one canceled task, for the amended C1. -/
def c1WitState : ExecutorState :=
  { tasks := [("a1", { id := "a1", contextId := "k1", taskState := TaskState.completed,
                       pendingTools := [], messageQueue := [], history := [] }),
              ("a2", { id := "a2", contextId := "k2", taskState := TaskState.canceled,
                       pendingTools := [], messageQueue := [], history := [] })],
    executingTasks := [] }

/-- Request naming task `a1` with no snapshot attached. -/
def c1WitReq : RequestContext :=
  { messageTaskId := "a1", messageContextId := "k1", messageText := "hi",
    messageHasAgentSettings := false, task := none }

/-- Oracle settling every call successfully and nothing at abort time. -/
def plainOracle : ToolOracle :=
  { settleFull := fun _ => SettledStatus.success, settleAtAbort := fun _ => none }

/-- A freshly-submitted task with no in-flight tools. -/
def freshTask (taskId contextId : String) : AgentTask :=
  { id := taskId, contextId := contextId, taskState := TaskState.submitted,
    pendingTools := [], messageQueue := [], history := [] }

/-- Empty registries. -/
def emptyExec : ExecutorState := { tasks := [], executingTasks := [] }

/-- A completed task used by the C6 counterexample. -/
def c6Task : AgentTask :=
  { id := "t6", contextId := "c6", taskState := TaskState.completed,
    pendingTools := [], messageQueue := [], history := [] }

/-- Registry holding only `c6Task`. -/
def c6State : ExecutorState := { tasks := [("t6", c6Task)], executingTasks := [] }

/-- Registry with a canceled task, for the amended C6. -/
def c6WitState : ExecutorState :=
  { tasks := [("t7", { id := "t7", contextId := "c7", taskState := TaskState.canceled,
                       pendingTools := [], messageQueue := [], history := [] })],
    executingTasks := [] }

/-- Registry with a submitted task whose loop is marked executing. -/
def c4State : ExecutorState :=
  { tasks := [("t4", freshTask "t4" "c4")], executingTasks := ["t4"] }

/-- Follow-up request for task `t4`. -/
def c4Req : RequestContext :=
  { messageTaskId := "t4", messageContextId := "c4", messageText := "follow-up",
    messageHasAgentSettings := false, task := none }

/-- Registry with a submitted task not currently executing. -/
def c3State : ExecutorState :=
  { tasks := [("e1", freshTask "e1" "c3")], executingTasks := [] }

/-- Request for task `e1`. -/
def c3Req : RequestContext :=
  { messageTaskId := "e1", messageContextId := "c3", messageText := "go",
    messageHasAgentSettings := false, task := none }

/-- Request carrying both a persisted snapshot and message-level ids. -/
def c10Req : RequestContext :=
  { messageTaskId := "mt", messageContextId := "mc", messageText := "m",
    messageHasAgentSettings := false,
    task := some { id := "st", contextId := "sc", state := TaskState.working,
                   history := [], hasPersistedState := true } }

/-! ## Helper lemmas -/

theorem alookup_aupdate_self {α β : Type} [DecidableEq α]
    (l : List (α × β)) (k : α) (v : β) : alookup (aupdate l k v) k = some v := by
  simp [alookup, aupdate, List.find?]

theorem alookup_aupdate_ne {α β : Type} [DecidableEq α]
    (l : List (α × β)) (k k2 : α) (v : β) (h : k2 ≠ k) :
    alookup (aupdate l k v) k2 = alookup l k2 := by
  have hkk : decide (k = k2) = false := decide_eq_false (fun hh => h hh.symm)
  simp only [alookup, aupdate, List.find?, hkk]
  congr 1
  induction l with
  | nil => rfl
  | cons p rest ih =>
    by_cases hp : p.1 = k
    · have hp2 : decide (p.1 = k2) = false :=
        decide_eq_false (fun hh => h (hp ▸ hh).symm)
      simp [List.filter_cons, hp, List.find?_cons, hp2, hkk, ih]
    · by_cases hq : p.1 = k2
      · simp [List.filter_cons, hp, List.find?_cons, hq, h]
      · simp [List.filter_cons, hp, List.find?_cons, hq, ih]

theorem countMsg_appendNewMessages (log msgs : List MessageL) (mid : String)
    (h : mid ∈ log.map (fun m => m.messageId)) :
    countMsg mid (appendNewMessages log msgs) = countMsg mid log := by
  unfold appendNewMessages countMsg
  rw [List.filter_append, List.length_append]
  have hnil : (msgs.filter (fun m =>
      !((log.map (fun x => x.messageId)).contains m.messageId))).filter
      (fun m => decide (m.messageId = mid)) = [] := by
    rw [List.filter_eq_nil_iff]
    intro m hm
    rcases List.mem_filter.mp hm with ⟨_, hnot⟩
    simp only [Bool.not_eq_true', List.contains_eq_any_beq, List.any_eq_false,
      beq_iff_eq] at hnot
    simp only [decide_eq_true_eq]
    intro hmid
    exact hnot mid h hmid
  rw [hnil]
  simp

theorem applySettled_not_pending (tc : ToolCall) (s : SettledStatus) :
    (applySettled tc s).status ≠ ToolStatus.pending := by
  cases s <;> simp [applySettled]

theorem applySettled_callId (tc : ToolCall) (s : SettledStatus) :
    (applySettled tc s).callId = tc.callId := by
  cases s <;> simp [applySettled]

theorem settleAll_no_pending (o : ToolOracle) (t : AgentTask) :
    ∀ tc ∈ (settleAll o t).pendingTools, tc.status ≠ ToolStatus.pending := by
  intro tc htc
  simp only [settleAll, List.mem_map] at htc
  obtain ⟨tc0, _, rfl⟩ := htc
  by_cases hp : tc0.status = ToolStatus.pending
  · rw [if_pos hp]; exact applySettled_not_pending _ _
  · rw [if_neg hp]; exact hp

theorem getAndClear_settleAll_empty (o : ToolOracle) (t : AgentTask) :
    (getAndClearCompletedTools (settleAll o t)).2.pendingTools = [] := by
  simp only [getAndClearCompletedTools]
  rw [List.filter_eq_nil_iff]
  intro tc htc
  have := settleAll_no_pending o t tc htc
  simpa using this

theorem isTerminal_iff (s : TaskState) :
    s.isTerminal = true ↔
      (s = TaskState.canceled ∨ s = TaskState.failed ∨ s = TaskState.completed) := by
  cases s <;> simp [TaskState.isTerminal]

theorem cancelPendingTools_spec (o : ToolOracle) (t : AgentTask) (reason : String)
    (h : oracleSettledTools o t.pendingTools) :
    ∀ tc ∈ (t.cancelPendingTools reason).pendingTools, cancelledWithReason o reason tc := by
  intro tc htc
  simp only [AgentTask.cancelPendingTools, List.mem_map] at htc
  obtain ⟨tc0, htc0, rfl⟩ := htc
  by_cases hp : tc0.status = ToolStatus.pending
  · rw [if_pos hp]
    exact ⟨by simp, fun _ => Or.inl rfl⟩
  · rw [if_neg hp]
    exact ⟨hp, fun hc => Or.inr (h tc0 htc0 hc)⟩

theorem settleAll_oracle (o : ToolOracle) (t : AgentTask)
    (h : ∀ tc ∈ t.pendingTools, tc.status = ToolStatus.pending) :
    oracleSettledTools o (settleAll o t).pendingTools := by
  intro tc htc hc
  simp only [settleAll, List.mem_map] at htc
  obtain ⟨tc0, htc0, rfl⟩ := htc
  rw [if_pos (h tc0 htc0)] at hc ⊢
  cases hs : o.settleFull tc0.callId with
  | success => rw [hs] at hc; simp [applySettled] at hc
  | errored => rw [hs] at hc; simp [applySettled] at hc
  | cancelled rs =>
    refine Or.inl ⟨rs, ?_, ?_⟩
    · rw [applySettled_callId]; exact hs
    · simp [applySettled]

theorem settleAtAbort_oracle (o : ToolOracle) (t : AgentTask)
    (h : ∀ tc ∈ t.pendingTools, tc.status = ToolStatus.pending) :
    oracleSettledTools o (settleAtAbort o t).pendingTools := by
  intro tc htc hc
  simp only [settleAtAbort, List.mem_map] at htc
  obtain ⟨tc0, htc0, rfl⟩ := htc
  rw [if_pos (h tc0 htc0)] at hc ⊢
  cases hs : o.settleAtAbort tc0.callId with
  | none =>
    rw [hs] at hc
    have hc2 : tc0.status = ToolStatus.cancelled := hc
    rw [h tc0 htc0] at hc2
    cases hc2
  | some s =>
    rw [hs] at hc
    cases s with
    | success => simp [applySettled] at hc
    | errored => simp [applySettled] at hc
    | cancelled rs =>
      refine Or.inr ⟨rs, ?_, ?_⟩
      · rw [applySettled_callId]; exact hs
      · rfl

theorem scheduled_pending (t : AgentTask) (reqs : List String)
    (hpt : t.pendingTools = []) :
    ∀ tc ∈ (if reqs.isEmpty then t else scheduleToolCalls t reqs).pendingTools,
      tc.status = ToolStatus.pending := by
  by_cases hb : reqs.isEmpty
  · rw [if_pos hb, hpt]; intro tc htc; cases htc
  · rw [if_neg hb]
    intro tc htc
    simp only [scheduleToolCalls, hpt, List.nil_append, List.mem_map] at htc
    obtain ⟨id, _, rfl⟩ := htc
    rfl

theorem scheduled_fields (t : AgentTask) (reqs : List String) :
    (if reqs.isEmpty then t else scheduleToolCalls t reqs).id = t.id ∧
    (if reqs.isEmpty then t else scheduleToolCalls t reqs).contextId = t.contextId ∧
    (if reqs.isEmpty then t else scheduleToolCalls t reqs).taskState = t.taskState := by
  by_cases hb : reqs.isEmpty <;> simp [hb, scheduleToolCalls]

theorem emptyTools_oracle (o : ToolOracle) (t : AgentTask)
    (hpt : t.pendingTools = []) : oracleSettledTools o t.pendingTools := by
  rw [hpt]; intro tc htc; cases htc

theorem catchBlock_abort (o : ToolOracle) (msg : String) (t : AgentTask)
    (hc : t.taskState ≠ TaskState.canceled) (hf : t.taskState ≠ TaskState.failed)
    (htools : oracleSettledTools o t.pendingTools) :
    abortConclusion o t (catchBlock true msg t) ∧
    (catchBlock true msg t).exit = LoopExit.abortCaught := by
  have hguard : (t.cancelPendingTools "Execution aborted").taskState ≠ TaskState.canceled ∧
      (t.cancelPendingTools "Execution aborted").taskState ≠ TaskState.failed := ⟨hc, hf⟩
  simp only [catchBlock, if_true, if_pos hguard]
  refine ⟨⟨rfl, rfl, rfl, rfl, ?_⟩, ?_⟩
  · exact cancelPendingTools_spec o t "Execution aborted" htools
  · trivial

theorem catchBlock_error (o : ToolOracle) (msg : String) (t : AgentTask)
    (hf : t.taskState ≠ TaskState.failed)
    (htools : oracleSettledTools o t.pendingTools) :
    errorConclusion o t msg (catchBlock false msg t) ∧
    (catchBlock false msg t).exit = LoopExit.errorCaught msg := by
  have hguard : (t.cancelPendingTools msg).taskState ≠ TaskState.failed := hf
  simp only [catchBlock, Bool.false_eq_true, if_false, if_pos hguard]
  refine ⟨⟨rfl, rfl, rfl, rfl, ?_⟩, ?_⟩
  · exact cancelPendingTools_spec o t msg htools
  · trivial

theorem abortConclusion_congr (o : ToolOracle) (t0 u : AgentTask) (r : LoopResult)
    (hid : u.id = t0.id) (hcid : u.contextId = t0.contextId)
    (h : abortConclusion o u r) : abortConclusion o t0 r := by
  obtain ⟨h1, h2, h3, h4, h5⟩ := h
  exact ⟨hid ▸ h1, hcid ▸ h2, h3, by rw [h4, hid, hcid], h5⟩

theorem errorConclusion_congr (o : ToolOracle) (t0 u : AgentTask) (msg : String)
    (r : LoopResult) (hid : u.id = t0.id) (hcid : u.contextId = t0.contextId)
    (h : errorConclusion o u msg r) : errorConclusion o t0 msg r := by
  obtain ⟨h1, h2, h3, h4, h5⟩ := h
  exact ⟨hid ▸ h1, hcid ▸ h2, h3, by rw [h4, hid, hcid], h5⟩

theorem classifyBatch_no_catch (t3 : AgentTask) (completed : List ToolCall) (c5 : Nat)
    (texts : List String) :
    (∀ r, classifyBatch t3 completed c5 texts = IterStep.exitNow r →
      r.exit = LoopExit.normalExit) ∧
    (∀ t2 c2 ts, classifyBatch t3 completed c5 texts = IterStep.continueLoop t2 c2 ts →
      t2 = t3 ∧ ts = texts) := by
  unfold classifyBatch
  constructor
  · intro r hr
    split at hr
    · cases hr; rfl
    · split at hr
      · cases hr; rfl
      · cases hr
  · intro t2 c2 ts h2
    split at h2
    · cases h2
    · split at h2
      · cases h2
      · cases h2; exact ⟨rfl, rfl⟩

theorem runOneIteration_exit (o : ToolOracle) (abortAt : Option Nat) (t : AgentTask)
    (cur : List AgentEvent) (c : Nat) (r : LoopResult)
    (hpt : t.pendingTools = [])
    (hc : t.taskState ≠ TaskState.canceled) (hf : t.taskState ≠ TaskState.failed)
    (h : runOneIteration o abortAt t cur c = IterStep.exitNow r) :
    (r.exit = LoopExit.abortCaught → abortConclusion o t r) ∧
    (∀ msg, r.exit = LoopExit.errorCaught msg → errorConclusion o t msg r) := by
  unfold runOneIteration at h
  split at h
  next m texts c2 heq =>
    cases h
    cases hA : isAborted abortAt c2 with
    | true =>
      have hcb := catchBlock_abort o (m.getD "Execution aborted") t hc hf
        (emptyTools_oracle o t hpt)
      constructor
      · intro _; exact hcb.1
      · intro msg hmsg
        exact LoopExit.noConfusion (hcb.2.symm.trans hmsg)
    | false =>
      have hcb := catchBlock_error o (m.getD "Execution aborted") t hf
        (emptyTools_oracle o t hpt)
      constructor
      · intro habort
        exact LoopExit.noConfusion (hcb.2.symm.trans habort)
      · intro msg hmsg
        have hinj := hcb.2.symm.trans hmsg
        cases hinj
        exact hcb.1
  next reqs texts c2 heq =>
    split at h
    · cases h
      have hcb := catchBlock_abort o "Execution aborted" t hc hf (emptyTools_oracle o t hpt)
      constructor
      · intro _; exact hcb.1
      · intro msg hmsg
        exact LoopExit.noConfusion (hcb.2.symm.trans hmsg)
    · split at h
      · cases h
        have hsf := scheduled_fields t reqs
        have hcu : (settleAtAbort o (if reqs.isEmpty then t else scheduleToolCalls t reqs)).taskState ≠ TaskState.canceled := by
          rw [show (settleAtAbort o (if reqs.isEmpty then t else scheduleToolCalls t reqs)).taskState = (if reqs.isEmpty then t else scheduleToolCalls t reqs).taskState from rfl, hsf.2.2]
          exact hc
        have hfu : (settleAtAbort o (if reqs.isEmpty then t else scheduleToolCalls t reqs)).taskState ≠ TaskState.failed := by
          rw [show (settleAtAbort o (if reqs.isEmpty then t else scheduleToolCalls t reqs)).taskState = (if reqs.isEmpty then t else scheduleToolCalls t reqs).taskState from rfl, hsf.2.2]
          exact hf
        have htools := settleAtAbort_oracle o (if reqs.isEmpty then t else scheduleToolCalls t reqs) (scheduled_pending t reqs hpt)
        have hcb := catchBlock_abort o "Execution aborted" _ hcu hfu htools
        constructor
        · intro _
          exact abortConclusion_congr o t _ _ hsf.1 hsf.2.1 hcb.1
        · intro msg hmsg
          exact LoopExit.noConfusion (hcb.2.symm.trans hmsg)
      · split at h
        · cases h
          have hsf := scheduled_fields t reqs
          have hcu : (settleAll o (if reqs.isEmpty then t else scheduleToolCalls t reqs)).taskState ≠ TaskState.canceled := by
            rw [show (settleAll o (if reqs.isEmpty then t else scheduleToolCalls t reqs)).taskState = (if reqs.isEmpty then t else scheduleToolCalls t reqs).taskState from rfl, hsf.2.2]
            exact hc
          have hfu : (settleAll o (if reqs.isEmpty then t else scheduleToolCalls t reqs)).taskState ≠ TaskState.failed := by
            rw [show (settleAll o (if reqs.isEmpty then t else scheduleToolCalls t reqs)).taskState = (if reqs.isEmpty then t else scheduleToolCalls t reqs).taskState from rfl, hsf.2.2]
            exact hf
          have htools := settleAll_oracle o (if reqs.isEmpty then t else scheduleToolCalls t reqs) (scheduled_pending t reqs hpt)
          have hcb := catchBlock_abort o "Execution aborted" _ hcu hfu htools
          constructor
          · intro _
            exact abortConclusion_congr o t _ _ hsf.1 hsf.2.1 hcb.1
          · intro msg hmsg
            exact LoopExit.noConfusion (hcb.2.symm.trans hmsg)
        · have hnorm := (classifyBatch_no_catch _ _ _ _).1 r h
          constructor
          · intro habort
            exact LoopExit.noConfusion (hnorm.symm.trans habort)
          · intro msg hmsg
            exact LoopExit.noConfusion (hnorm.symm.trans hmsg)

theorem runOneIteration_continue (o : ToolOracle) (abortAt : Option Nat) (t : AgentTask)
    (cur : List AgentEvent) (c : Nat) (t2 : AgentTask) (c2 : Nat) (ts : List String)
    (hpt : t.pendingTools = [])
    (h : runOneIteration o abortAt t cur c = IterStep.continueLoop t2 c2 ts) :
    t2.pendingTools = [] ∧ t2.id = t.id ∧ t2.contextId = t.contextId ∧
    t2.taskState = t.taskState := by
  unfold runOneIteration at h
  split at h
  next m texts c2x heq => cases h
  next reqs texts c2x heq =>
    split at h
    · cases h
    · split at h
      · cases h
      · split at h
        · cases h
        · have hcb := (classifyBatch_no_catch _ _ _ _).2 t2 c2 ts h
          obtain ⟨rfl, -⟩ := hcb
          refine ⟨getAndClear_settleAll_empty o _, ?_, ?_, ?_⟩
          · exact (scheduled_fields t reqs).1
          · exact (scheduled_fields t reqs).2.1
          · exact (scheduled_fields t reqs).2.2

theorem runIterations_spec (o : ToolOracle) (abortAt : Option Nat) :
    ∀ (fuel : Nat) (streams : List (List AgentEvent)) (c : Nat) (t : AgentTask),
      t.pendingTools = [] → t.taskState ≠ TaskState.canceled →
      t.taskState ≠ TaskState.failed →
      ((runIterations o abortAt fuel t streams c).exit = LoopExit.abortCaught →
        abortConclusion o t (runIterations o abortAt fuel t streams c)) ∧
      (∀ msg, (runIterations o abortAt fuel t streams c).exit = LoopExit.errorCaught msg →
        errorConclusion o t msg (runIterations o abortAt fuel t streams c)) := by
  intro fuel
  induction fuel with
  | zero =>
    intro streams c t hpt hc hf
    constructor
    · intro hx; simp [runIterations] at hx
    · intro msg hx; simp [runIterations] at hx
  | succ fuel ih =>
    intro streams c t hpt hc hf
    cases hstep : runOneIteration o abortAt t (streams.headD []) c with
    | exitNow r =>
      have hred : runIterations o abortAt (fuel + 1) t streams c = r := by
        simp only [runIterations]
        rw [hstep]
      rw [hred]
      exact runOneIteration_exit o abortAt t (streams.headD []) c r hpt hc hf hstep
    | continueLoop t2 c2 ts =>
      obtain ⟨hpt2, hid, hcid, hst⟩ :=
        runOneIteration_continue o abortAt t (streams.headD []) c t2 c2 ts hpt hstep
      have hc2 : t2.taskState ≠ TaskState.canceled := by rw [hst]; exact hc
      have hf2 : t2.taskState ≠ TaskState.failed := by rw [hst]; exact hf
      have ih2 := ih streams.tail c2 t2 hpt2 hc2 hf2
      have hred : runIterations o abortAt (fuel + 1) t streams c =
          { runIterations o abortAt fuel t2 streams.tail c2 with
            texts := ts ++ (runIterations o abortAt fuel t2 streams.tail c2).texts } := by
        simp only [runIterations]
        rw [hstep]
      rw [hred]
      constructor
      · intro hx
        have hx2 : (runIterations o abortAt fuel t2 streams.tail c2).exit =
            LoopExit.abortCaught := hx
        have ha := ih2.1 hx2
        exact abortConclusion_congr o t t2 _ hid hcid ha
      · intro msg hx
        have hx2 : (runIterations o abortAt fuel t2 streams.tail c2).exit =
            LoopExit.errorCaught msg := hx
        have ha := ih2.2 msg hx2
        exact errorConclusion_congr o t t2 msg _ hid hcid ha

theorem execute_mem (s : ExecutorState) (req : RequestContext) (o : ToolOracle)
    (abortAt : Option Nat) (streams : List (List AgentEvent)) (f1 f2 : String)
    (t : AgentTask) (hmem : s.getTask (resolveTaskId req f1) = some t) :
    CoderAgentExecutor.execute s req o abortAt streams f1 f2 =
      executeWithTask s req o abortAt streams (resolveTaskId req f1) t := by
  simp only [CoderAgentExecutor.execute]
  rw [hmem]

theorem executeWithTask_terminal (s : ExecutorState) (req : RequestContext)
    (o : ToolOracle) (abortAt : Option Nat) (streams : List (List AgentEvent))
    (taskId : String) (t : AgentTask)
    (hterm : t.taskState = TaskState.canceled ∨ t.taskState = TaskState.failed ∨
      t.taskState = TaskState.completed) :
    executeWithTask s req o abortAt streams taskId t =
      { state := s, events := [], texts := [], path := ExecPath.terminalIgnored } := by
  unfold executeWithTask
  rw [if_pos hterm]

theorem executeWithTask_absorbs (s : ExecutorState) (req : RequestContext)
    (o : ToolOracle) (abortAt : Option Nat) (streams : List (List AgentEvent))
    (taskId : String) (t : AgentTask)
    (hterm : ¬(t.taskState = TaskState.canceled ∨ t.taskState = TaskState.failed ∨
      t.taskState = TaskState.completed))
    (hexec : s.executingTasks.contains taskId = true) :
    executeWithTask s req o abortAt streams taskId t =
      { state := { s with tasks := aupdate s.tasks taskId { t with messageQueue := t.messageQueue ++ [req.messageText] } }, events := [], texts := [], path := ExecPath.absorbed } := by
  unfold executeWithTask
  rw [if_neg hterm, if_pos hexec]

theorem executeWithTask_runs (s : ExecutorState) (req : RequestContext)
    (o : ToolOracle) (abortAt : Option Nat) (streams : List (List AgentEvent))
    (taskId : String) (t : AgentTask)
    (hterm : ¬(t.taskState = TaskState.canceled ∨ t.taskState = TaskState.failed ∨
      t.taskState = TaskState.completed))
    (hexec : s.executingTasks.contains taskId = false) :
    executeWithTask s req o abortAt streams taskId t =
      { state := { s with tasks := aupdate s.tasks taskId (runTurnLoop o abortAt t streams).task }, events := (runTurnLoop o abortAt t streams).events, texts := (runTurnLoop o abortAt t streams).texts, path := ExecPath.ranLoop (runTurnLoop o abortAt t streams).exit } := by
  have hnc : ¬(s.executingTasks.contains taskId = true) := by
    rw [hexec]; intro hh; cases hh
  unfold executeWithTask
  rw [if_neg hterm, if_neg hnc]

/-! ## Claim theorems -/

/-- C2: for every turn-loop invocation in which the cancellation signal
fires (the run ends through the catch with the signal set), every
still-pending tool call is cancelled with a reason; since the task's state
is not already canceled or failed, the state transitions to input-required
with a message noting the abort, and exactly one final status event is
published for that invocation. -/
theorem c2_cancellation_not_swallowed (o : ToolOracle) (abortAt : Option Nat)
    (t : AgentTask) (streams : List (List AgentEvent))
    (hpt : t.pendingTools = [])
    (hc : t.taskState ≠ TaskState.canceled) (hf : t.taskState ≠ TaskState.failed)
    (hexit : (runTurnLoop o abortAt t streams).exit = LoopExit.abortCaught) :
    (runTurnLoop o abortAt t streams).task.taskState = TaskState.inputRequired ∧
    (runTurnLoop o abortAt t streams).events = [abortStatusEvent t.id t.contextId] ∧
    ((runTurnLoop o abortAt t streams).events.filter (fun e => e.final)).length = 1 ∧
    ∀ tc ∈ (runTurnLoop o abortAt t streams).task.pendingTools,
      cancelledWithReason o "Execution aborted" tc := by
  have h := (runIterations_spec o abortAt (streams.length + 2) streams 0 t hpt hc hf).1 hexit
  obtain ⟨h1, h2, h3, h4, h5⟩ := h
  have h4x : (runTurnLoop o abortAt t streams).events =
    [abortStatusEvent t.id t.contextId] := h4
  refine ⟨h3, h4, ?_, h5⟩
  rw [h4x]
  simp [abortStatusEvent]

/-- C2 witness: a client abort at the first checkpoint of a fresh task's
turn is handled as the claim states. -/
theorem c2_witness :
    (runTurnLoop plainOracle (some 0) (freshTask "w2" "k2") [[AgentEvent.content "hi"]]).task.taskState =
      TaskState.inputRequired ∧
    (runTurnLoop plainOracle (some 0) (freshTask "w2" "k2") [[AgentEvent.content "hi"]]).events =
      [abortStatusEvent "w2" "k2"] := by
  have h := c2_cancellation_not_swallowed plainOracle (some 0) (freshTask "w2" "k2")
    [[AgentEvent.content "hi"]] rfl (by decide) (by decide) (by decide)
  exact ⟨h.1, h.2.1⟩

/-- C3: for every non-cancellation error raised during the turn-loop, the
pending tool calls are cancelled (the catch uses the error message as the
reason), the task transitions to failed with exactly one final status
event carrying the error text, and the caller of execute sees a normal
return — the result records the caught error in its path instead of an
exception escaping. -/
theorem c3_loop_error_contained (s : ExecutorState) (req : RequestContext)
    (o : ToolOracle) (abortAt : Option Nat) (streams : List (List AgentEvent))
    (f1 f2 : String) (t : AgentTask) (msg : String)
    (hmem : s.getTask (resolveTaskId req f1) = some t)
    (hterm : t.taskState.isTerminal = false)
    (hexec : s.executingTasks.contains (resolveTaskId req f1) = false)
    (hpt : t.pendingTools = [])
    (hexit : (runTurnLoop o abortAt t streams).exit = LoopExit.errorCaught msg) :
    (CoderAgentExecutor.execute s req o abortAt streams f1 f2).path =
      ExecPath.ranLoop (LoopExit.errorCaught msg) ∧
    (CoderAgentExecutor.execute s req o abortAt streams f1 f2).events =
      [failedStatusEvent t.id t.contextId msg] ∧
    ((CoderAgentExecutor.execute s req o abortAt streams f1 f2).events.filter
      (fun e => e.final)).length = 1 ∧
    (CoderAgentExecutor.execute s req o abortAt streams f1 f2).state.executingTasks =
      s.executingTasks ∧
    ((CoderAgentExecutor.execute s req o abortAt streams f1 f2).state.getTask
      (resolveTaskId req f1)).map (fun u => u.taskState) = some TaskState.failed ∧
    ∀ tc ∈ (runTurnLoop o abortAt t streams).task.pendingTools,
      cancelledWithReason o msg tc := by
  have hcf : ¬(t.taskState = TaskState.canceled ∨ t.taskState = TaskState.failed ∨
      t.taskState = TaskState.completed) := by
    intro hor
    rw [(isTerminal_iff t.taskState).mpr hor] at hterm
    cases hterm
  have hc : t.taskState ≠ TaskState.canceled := fun hh => hcf (Or.inl hh)
  have hf : t.taskState ≠ TaskState.failed := fun hh => hcf (Or.inr (Or.inl hh))
  have herr := (runIterations_spec o abortAt (streams.length + 2) streams 0 t hpt hc hf).2
    msg hexit
  obtain ⟨h1, h2, h3, h4, h5⟩ := herr
  have h3x : (runTurnLoop o abortAt t streams).task.taskState = TaskState.failed := h3
  have h4x : (runTurnLoop o abortAt t streams).events =
    [failedStatusEvent t.id t.contextId msg] := h4
  rw [execute_mem s req o abortAt streams f1 f2 t hmem,
    executeWithTask_runs s req o abortAt streams (resolveTaskId req f1) t hcf hexec]
  refine ⟨?_, h4, ?_, rfl, ?_, h5⟩
  · show ExecPath.ranLoop (runTurnLoop o abortAt t streams).exit =
      ExecPath.ranLoop (LoopExit.errorCaught msg)
    rw [hexit]
  · show ((runTurnLoop o abortAt t streams).events.filter (fun e => e.final)).length = 1
    rw [h4x]; simp [failedStatusEvent]
  · show (alookup (aupdate s.tasks (resolveTaskId req f1) (runTurnLoop o abortAt t streams).task) (resolveTaskId req f1)).map (fun u => u.taskState) = some TaskState.failed
    rw [alookup_aupdate_self]
    simp [h3x]

/-- C3 witness: a model stream that raises is converted into one final
failed event and a normal return of execute. -/
theorem c3_witness :
    (CoderAgentExecutor.execute c3State c3Req plainOracle none
      [[AgentEvent.streamThrow "boom"]] "fx" "fy").path =
      ExecPath.ranLoop (LoopExit.errorCaught "boom") ∧
    (CoderAgentExecutor.execute c3State c3Req plainOracle none
      [[AgentEvent.streamThrow "boom"]] "fx" "fy").events =
      [failedStatusEvent "e1" "c3" "boom"] := by
  have h := c3_loop_error_contained c3State c3Req plainOracle none
    [[AgentEvent.streamThrow "boom"]] "fx" "fy" (freshTask "e1" "c3") "boom"
    (by decide) (by decide) (by decide) rfl (by decide)
  exact ⟨h.1, h.2.1⟩

/-- C1 counterexample: `completed` is in the terminal set, yet cancelTask
on a completed task mutates its state to canceled and cancels its pending
tool call — terminality is not sticky under cancelTask for `completed`. -/
theorem c1_counterexample :
    TaskState.completed.isTerminal = true ∧
    ((CoderAgentExecutor.cancelTask c1State "t1" "cf").1.getTask "t1").map
      (fun u => u.taskState) = some TaskState.canceled ∧
    ((CoderAgentExecutor.cancelTask c1State "t1" "cf").1.getTask "t1").map
      (fun u => u.pendingTools) =
      some [{ callId := "call1", status := ToolStatus.cancelled,
              reason := some "Task canceled by user request." }] ∧
    TaskState.canceled ≠ TaskState.completed := by decide

/-- C1 (amended): for every task in the terminal set {completed, canceled,
failed}, execute is a no-op (no events, no tool scheduling, registries
unchanged); cancelTask leaves the registry unchanged when the state is
canceled or failed; but cancelTask on a completed task is not a no-op: it
transitions the task to canceled. -/
theorem c1_terminal_stickiness (s : ExecutorState) :
    (∀ (req : RequestContext) (o : ToolOracle) (abortAt : Option Nat)
        (streams : List (List AgentEvent)) (f1 f2 : String) (t : AgentTask),
      s.getTask (resolveTaskId req f1) = some t → t.taskState.isTerminal = true →
      CoderAgentExecutor.execute s req o abortAt streams f1 f2 =
        { state := s, events := [], texts := [], path := ExecPath.terminalIgnored }) ∧
    (∀ (taskId freshContextId : String) (t : AgentTask),
      s.getTask taskId = some t →
      (t.taskState = TaskState.canceled ∨ t.taskState = TaskState.failed) →
      (CoderAgentExecutor.cancelTask s taskId freshContextId).1 = s) ∧
    (∀ (taskId freshContextId : String) (t : AgentTask),
      s.getTask taskId = some t → t.taskState = TaskState.completed →
      ((CoderAgentExecutor.cancelTask s taskId freshContextId).1.getTask taskId).map
        (fun u => u.taskState) = some TaskState.canceled) := by
  refine ⟨?_, ?_, ?_⟩
  · intro req o abortAt streams f1 f2 t hmem hterm
    rw [execute_mem s req o abortAt streams f1 f2 t hmem,
      executeWithTask_terminal s req o abortAt streams (resolveTaskId req f1) t
        ((isTerminal_iff t.taskState).mp hterm)]
  · intro taskId freshContextId t hmem hor
    simp only [CoderAgentExecutor.cancelTask, hmem]
    rw [if_pos hor]
  · intro taskId freshContextId t hmem hcomp
    have hor : ¬(t.taskState = TaskState.canceled ∨ t.taskState = TaskState.failed) := by
      rw [hcomp]; intro hh; rcases hh with hh | hh <;> cases hh
    simp only [CoderAgentExecutor.cancelTask, hmem]
    rw [if_neg hor]
    show (alookup (aupdate s.tasks taskId _) taskId).map (fun u => u.taskState) =
      some TaskState.canceled
    rw [alookup_aupdate_self]
    rfl

/-- C1 witness: concrete instances of all three amended parts. -/
theorem c1_witness :
    CoderAgentExecutor.execute c1WitState c1WitReq plainOracle none [] "fa" "fb" =
      { state := c1WitState, events := [], texts := [], path := ExecPath.terminalIgnored } ∧
    (CoderAgentExecutor.cancelTask c1WitState "a2" "cz").1 = c1WitState ∧
    ((CoderAgentExecutor.cancelTask c1WitState "a1" "cz").1.getTask "a1").map
      (fun u => u.taskState) = some TaskState.canceled := by
  have h := c1_terminal_stickiness c1WitState
  refine ⟨?_, ?_, ?_⟩
  · exact h.1 c1WitReq plainOracle none [] "fa" "fb"
      { id := "a1", contextId := "k1", taskState := TaskState.completed,
        pendingTools := [], messageQueue := [], history := [] } (by decide) (by decide)
  · exact h.2.1 "a2" "cz"
      { id := "a2", contextId := "k2", taskState := TaskState.canceled,
        pendingTools := [], messageQueue := [], history := [] } (by decide) (Or.inl rfl)
  · exact h.2.2 "a1" "cz"
      { id := "a1", contextId := "k1", taskState := TaskState.completed,
        pendingTools := [], messageQueue := [], history := [] } (by decide) rfl

/-- C4: when a task already has an active turn-loop (its id is in the
executing set) and is not terminal, a second execute call for the same id
never starts a second loop: the message is absorbed into the task's
message-acceptance channel, no events are published, and the executing set
is unchanged. -/
theorem c4_second_execute_absorbed (s : ExecutorState) (req : RequestContext)
    (o : ToolOracle) (abortAt : Option Nat) (streams : List (List AgentEvent))
    (f1 f2 : String) (t : AgentTask)
    (hmem : s.getTask (resolveTaskId req f1) = some t)
    (hnt : t.taskState.isTerminal = false)
    (hexec : s.executingTasks.contains (resolveTaskId req f1) = true) :
    CoderAgentExecutor.execute s req o abortAt streams f1 f2 =
      { state := { s with tasks := aupdate s.tasks (resolveTaskId req f1) { t with messageQueue := t.messageQueue ++ [req.messageText] } }, events := [], texts := [], path := ExecPath.absorbed } := by
  have hcf : ¬(t.taskState = TaskState.canceled ∨ t.taskState = TaskState.failed ∨
      t.taskState = TaskState.completed) := by
    intro hor
    rw [(isTerminal_iff t.taskState).mpr hor] at hnt
    cases hnt
  rw [execute_mem s req o abortAt streams f1 f2 t hmem,
    executeWithTask_absorbs s req o abortAt streams (resolveTaskId req f1) t hcf hexec]

/-- C4 witness: a follow-up message for an executing task is absorbed. -/
theorem c4_witness :
    CoderAgentExecutor.execute c4State c4Req plainOracle none [] "fa" "fb" =
      { state := { tasks := aupdate c4State.tasks "t4" { freshTask "t4" "c4" with messageQueue := ["follow-up"] }, executingTasks := ["t4"] }, events := [], texts := [], path := ExecPath.absorbed } :=
  c4_second_execute_absorbed c4State c4Req plainOracle none [] "fa" "fb"
    (freshTask "t4" "c4") (by decide) (by decide) (by decide)

/-- C5: cancelTask on a task id that is not in the registry publishes
exactly one failed status event with the final flag set, whose message
names that task id, and returns normally with the registries unchanged. -/
theorem c5_cancel_unknown (s : ExecutorState) (taskId freshContextId : String)
    (h : s.getTask taskId = none) :
    CoderAgentExecutor.cancelTask s taskId freshContextId =
      (s, [{ taskId := taskId, contextId := freshContextId, state := TaskState.failed, messageText := some ("Task " ++ taskId ++ " not found."), final := true }]) := by
  unfold CoderAgentExecutor.cancelTask
  rw [h]

/-- C5 witness: cancelling an unknown id on an empty registry. -/
theorem c5_witness :
    CoderAgentExecutor.cancelTask emptyExec "t9" "cFresh" =
      (emptyExec, [{ taskId := "t9", contextId := "cFresh", state := TaskState.failed, messageText := some ("Task " ++ "t9" ++ " not found."), final := true }]) :=
  c5_cancel_unknown emptyExec "t9" "cFresh" (by decide)

/-- C6 counterexample: cancelTask on a task whose terminal state is
completed does not re-publish that state verbatim — it publishes canceled
and mutates the task — so idempotent cancel fails for `completed`. -/
theorem c6_counterexample :
    c6Task.taskState = TaskState.completed ∧
    (CoderAgentExecutor.cancelTask c6State "t6" "cf").2 =
      [{ taskId := "t6", contextId := "c6", state := TaskState.canceled, messageText := some "Task canceled by user request.", final := true }] ∧
    ((CoderAgentExecutor.cancelTask c6State "t6" "cf").1.getTask "t6").map
      (fun u => u.taskState) = some TaskState.canceled ∧
    TaskState.canceled ≠ TaskState.completed := by decide

/-- C6 (amended): for every task already in state canceled or failed,
cancelTask is idempotent — it re-publishes the task's existing terminal
state verbatim as one final status event and leaves the registry
unchanged; a completed task, by contrast, is canceled. -/
theorem c6_cancel_idempotent (s : ExecutorState) (taskId freshContextId : String)
    (t : AgentTask) (hmem : s.getTask taskId = some t)
    (hterm : t.taskState = TaskState.canceled ∨ t.taskState = TaskState.failed) :
    CoderAgentExecutor.cancelTask s taskId freshContextId =
      (s, [{ taskId := taskId, contextId := t.contextId, state := t.taskState, messageText := some ("Task " ++ taskId ++ " is already " ++ t.taskState.asString ++ "."), final := true }]) := by
  simp only [CoderAgentExecutor.cancelTask, hmem]
  rw [if_pos hterm]

/-- C6 witness: cancelling an already-canceled task re-publishes canceled. -/
theorem c6_witness :
    CoderAgentExecutor.cancelTask c6WitState "t7" "cq" =
      (c6WitState, [{ taskId := "t7", contextId := "c7", state := TaskState.canceled, messageText := some ("Task " ++ "t7" ++ " is already " ++ TaskState.canceled.asString ++ "."), final := true }]) :=
  c6_cancel_idempotent c6WitState "t7" "cq"
    { id := "t7", contextId := "c7", taskState := TaskState.canceled,
      pendingTools := [], messageQueue := [], history := [] }
    (by decide) (Or.inl rfl)

/-- C10: the task id and the context id are resolved with opposite
precedence — the task id from the persisted snapshot first, then the
message, then the fresh value; the context id from the message first, then
the snapshot, then the fresh value; in particular, when both the snapshot
and the message carry identifiers, the task id comes from the snapshot and
the context id from the message. -/
theorem c10_id_resolution (req : RequestContext) (fresh : String) :
    (∀ sdk, req.task = some sdk → sdk.id ≠ "" → resolveTaskId req fresh = sdk.id) ∧
    (req.task = none → req.messageTaskId ≠ "" →
      resolveTaskId req fresh = req.messageTaskId) ∧
    (req.task = none → req.messageTaskId = "" → resolveTaskId req fresh = fresh) ∧
    (req.messageContextId ≠ "" → resolveContextId req fresh = req.messageContextId) ∧
    (∀ sdk, req.task = some sdk → req.messageContextId = "" → sdk.contextId ≠ "" →
      resolveContextId req fresh = sdk.contextId) ∧
    (req.task = none → req.messageContextId = "" → resolveContextId req fresh = fresh) ∧
    (∀ sdk, req.task = some sdk → sdk.id ≠ "" → req.messageContextId ≠ "" →
      resolveTaskId req fresh = sdk.id ∧
      resolveContextId req fresh = req.messageContextId) := by
  refine ⟨?_, ?_, ?_, ?_, ?_, ?_, ?_⟩
  · intro sdk hsdk hid
    simp [resolveTaskId, hsdk, strOr, hid]
  · intro hnone hmid
    simp [resolveTaskId, hnone, strOr, hmid]
  · intro hnone hmid
    simp [resolveTaskId, hnone, strOr, hmid]
  · intro hmc
    simp [resolveContextId, strOr, hmc]
  · intro sdk hsdk hmc hsc
    simp [resolveContextId, hsdk, strOr, hmc, hsc]
  · intro hnone hmc
    simp [resolveContextId, hnone, strOr, hmc]
  · intro sdk hsdk hid hmc
    constructor
    · simp [resolveTaskId, hsdk, strOr, hid]
    · simp [resolveContextId, strOr, hmc]

/-- C10 witness: with both a snapshot and message-level ids present, the
task id comes from the snapshot and the context id from the message. -/
theorem c10_witness :
    resolveTaskId c10Req "fz" = "st" ∧ resolveContextId c10Req "fz" = "mc" := by
  have h := (c10_id_resolution c10Req "fz").2.2.2.2.2.2
    { id := "st", contextId := "sc", state := TaskState.working,
      history := [], hasPersistedState := true } rfl (by decide) (by decide)
  exact h

/-- C7 counterexample: on a concrete save that engages every step, the
store writes the task snapshot first, the workspace second, the index
third and the context log last — not the index-first order of the claim
(shown against the claimed trace with and without its final append). -/
theorem c7_counterexample :
    (GCSTaskStoreA.save emptyGCS c7Env c7Task).map (fun p => p.2) =
      Except.ok [StoreAction.saveTaskJson "c1" "t1", StoreAction.saveWorkspace "c1" "t1", StoreAction.saveIndex "t1" "c1", StoreAction.saveContextLog "c1"] ∧
    [StoreAction.saveTaskJson "c1" "t1", StoreAction.saveWorkspace "c1" "t1", StoreAction.saveIndex "t1" "c1", StoreAction.saveContextLog "c1"] ≠
      c7ClaimedTrace c7Task c7Env true ∧
    [StoreAction.saveTaskJson "c1" "t1", StoreAction.saveWorkspace "c1" "t1", StoreAction.saveIndex "t1" "c1", StoreAction.saveContextLog "c1"] ≠
      c7ClaimedTrace c7Task c7Env false :=
  ⟨rfl, by decide, by decide⟩

/-- C7 (amended): save fails when the task lacks a context identifier;
otherwise it performs, in this order: (1) the task snapshot write, (2) the
workspace archive upload exactly when the working directory exists and is
non-empty (skipped silently otherwise), (3) the index entry write, (4) the
context-log append exactly when the history has messages not already in
the log. -/
theorem c7_save_order (st : GCSState) (env : SaveEnv) (task : SDKTask) :
    (task.contextId = "" →
      GCSTaskStoreA.save st env task =
        Except.error ("Task " ++ task.id ++ " is missing a contextId.")) ∧
    (task.contextId ≠ "" → ∃ st2, GCSTaskStoreA.save st env task =
      Except.ok (st2,
        [StoreAction.saveTaskJson task.contextId task.id] ++
        (if env.workDirExists && !env.workDirEntries.isEmpty then [StoreAction.saveWorkspace task.contextId task.id] else []) ++
        [StoreAction.saveIndex task.id task.contextId] ++
        (if (newMessagesA st task).isEmpty then [] else [StoreAction.saveContextLog task.contextId]))) := by
  constructor
  · intro h
    simp [GCSTaskStoreA.save, h]
  · intro h
    simp only [GCSTaskStoreA.save, if_neg h]
    by_cases hw : env.workDirExists && !env.workDirEntries.isEmpty
    · simp only [if_pos hw]
      by_cases hn : (newMessagesA st task).isEmpty
      · have hn2 := hn
        simp only [newMessagesA, GCSTaskStoreA.getContextHistory] at hn2
        exact ⟨_, by simp only [if_pos hn2, if_pos hn, List.append_nil]; rfl⟩
      · have hn2 := hn
        simp only [newMessagesA, GCSTaskStoreA.getContextHistory] at hn2
        exact ⟨_, by simp only [if_neg hn2, if_neg hn, List.append_nil]; rfl⟩
    · simp only [if_neg hw]
      by_cases hn : (newMessagesA st task).isEmpty
      · have hn2 := hn
        simp only [newMessagesA, GCSTaskStoreA.getContextHistory] at hn2
        exact ⟨_, by simp only [if_pos hn2, if_pos hn, List.append_nil]; rfl⟩
      · have hn2 := hn
        simp only [newMessagesA, GCSTaskStoreA.getContextHistory] at hn2
        exact ⟨_, by simp only [if_neg hn2, if_neg hn, List.append_nil]; rfl⟩

/-- C7 witness: the amended order on the concrete full-save input, and the
failure on a task without a context id. -/
theorem c7_witness :
    (∃ st2, GCSTaskStoreA.save emptyGCS c7Env c7Task =
      Except.ok (st2,
        [StoreAction.saveTaskJson "c1" "t1"] ++
        (if c7Env.workDirExists && !c7Env.workDirEntries.isEmpty then [StoreAction.saveWorkspace "c1" "t1"] else []) ++
        [StoreAction.saveIndex "t1" "c1"] ++
        (if (newMessagesA emptyGCS c7Task).isEmpty then [] else [StoreAction.saveContextLog "c1"]))) ∧
    GCSTaskStoreA.save emptyGCS c7Env { c7Task with contextId := "" } =
      Except.error ("Task " ++ "t1" ++ " is missing a contextId.") := by
  constructor
  · exact (c7_save_order emptyGCS c7Env c7Task).2 (by decide)
  · exact (c7_save_order emptyGCS c7Env { c7Task with contextId := "" }).1 rfl

/-- C8: the Durable Store's load (the GCSTaskStore revision at
part_001:464-542) returns a not-found result, not an error, when the index
entry is absent, and raises the inconsistent-state error when the index
entry exists but the task snapshot does not. -/
theorem c8_load_inconsistency (st : GCSState) (taskId : String) :
    (alookup st.index taskId = none →
      GCSTaskStoreB.load st taskId = Except.ok (none, [])) ∧
    (∀ contextId, alookup st.index taskId = some contextId →
      alookup st.snapshots (contextId, taskId) = none →
      GCSTaskStoreB.load st taskId =
        Except.error ("Inconsistent state: Task object not found for task " ++ taskId)) := by
  constructor
  · intro h
    simp [GCSTaskStoreB.load, h]
  · intro cid h1 h2
    simp [GCSTaskStoreB.load, h1, h2]

/-- C8 witness: an empty bucket yields not-found; a dangling index entry
yields the inconsistent-state error. -/
theorem c8_witness :
    GCSTaskStoreB.load emptyGCS "t1" = Except.ok (none, []) ∧
    GCSTaskStoreB.load c8Dangling "t1" =
      Except.error ("Inconsistent state: Task object not found for task " ++ "t1") :=
  ⟨(c8_load_inconsistency emptyGCS "t1").1 (by decide),
   (c8_load_inconsistency c8Dangling "t1").2 "c1" (by decide) (by decide)⟩

theorem saveA_contextLogs (st : GCSState) (env : SaveEnv) (task : SDKTask)
    (st2 : GCSState) (acts : List StoreAction)
    (hsave : GCSTaskStoreA.save st env task = Except.ok (st2, acts)) :
    st2.contextLogs = st.contextLogs ∨
    st2.contextLogs = aupdate st.contextLogs task.contextId
      (appendNewMessages ((alookup st.contextLogs task.contextId).getD []) task.history) := by
  by_cases h0 : task.contextId = ""
  · simp [GCSTaskStoreA.save, h0] at hsave
  · simp only [GCSTaskStoreA.save, if_neg h0] at hsave
    by_cases hw : env.workDirExists && !env.workDirEntries.isEmpty
    · rw [if_pos hw] at hsave
      split at hsave
      · cases hsave; exact Or.inl rfl
      · cases hsave; exact Or.inr rfl
    · rw [if_neg hw] at hsave
      split at hsave
      · cases hsave; exact Or.inl rfl
      · cases hsave; exact Or.inr rfl

/-- C9: the context-log append is idempotent across repeated saves — when
a message with a given id is already in the context log, a save of a task
whose history contains that id does not add a second copy: the number of
log entries with that id is unchanged. -/
theorem c9_history_append_idempotent (st st2 : GCSState) (env : SaveEnv)
    (task : SDKTask) (acts : List StoreAction) (mid : String)
    (hsave : GCSTaskStoreA.save st env task = Except.ok (st2, acts))
    (hmem : mid ∈ (GCSTaskStoreA.getContextHistory st task.contextId).map
      (fun m => m.messageId))
    (htask : mid ∈ task.history.map (fun m => m.messageId)) :
    countMsg mid (GCSTaskStoreA.getContextHistory st2 task.contextId) =
      countMsg mid (GCSTaskStoreA.getContextHistory st task.contextId) := by
  rcases saveA_contextLogs st env task st2 acts hsave with hlogs | hlogs
  · have h2 : GCSTaskStoreA.getContextHistory st2 task.contextId =
        GCSTaskStoreA.getContextHistory st task.contextId := by
      show (alookup st2.contextLogs task.contextId).getD [] =
        (alookup st.contextLogs task.contextId).getD []
      rw [hlogs]
    rw [h2]
  · have h2 : GCSTaskStoreA.getContextHistory st2 task.contextId =
        appendNewMessages (GCSTaskStoreA.getContextHistory st task.contextId)
          task.history := by
      show (alookup st2.contextLogs task.contextId).getD [] = _
      rw [hlogs, alookup_aupdate_self]
      rfl
    rw [h2]
    exact countMsg_appendNewMessages _ _ _ hmem

/-- C9 witness: saving a task whose history repeats an already-logged
message id leaves exactly one copy of that id in the context log. -/
theorem c9_witness :
    countMsg "m1" (GCSTaskStoreA.getContextHistory c9St2 "c1") =
      countMsg "m1" (GCSTaskStoreA.getContextHistory c9St "c1") :=
  c9_history_append_idempotent c9St c9St2 c9Env c9Task c9Acts "m1"
    rfl (by decide) (by decide)
